import Mathlib

/-!
Shallow embedding of the infraction lifecycle engine of the CommandBot
repository (sources under `bot/utils/infractions.py`,
`bot/cogs/moderation/infractions.py`, `bot/cogs/moderation/scheduler.py`,
`bot/database.py`), together with proofs checking the natural-language
specification's claims against it.

Modelling conventions:
* instants and durations are natural numbers of seconds
  (`datetime.datetime` values at the granularity the fixed timestamp
  format of the configuration preserves);
* the sqlite `infractions` table is a list of `(rowid, row)` pairs, with
  `rowid` assigned as `max rowid + 1` on insert, mirroring sqlite;
* coroutines performing external platform calls are modelled by an
  outcome parameter (success / the exception the source anticipates) and
  by an explicit list of attempted external effects;
* the two `datetime.now()` calls inside `Infraction.__init__` /
  `Infraction.active` during construction are modelled as the same
  instant `start`.
-/

namespace CommandBot

/-- The permanent-duration sentinel `1_000_000_000` used throughout the
source (`bot/cogs/moderation/infractions.py`, `bot/utils/infractions.py`). -/
def permanentSentinel : Nat := 1000000000

/-- One infraction object, mirroring `bot/utils/infractions.py`,
`Infraction.__init__`: fields `user_id`, `type`, `reason`, `actor_id`,
`start`, `duration`, `is_active`, `id` (`rowid`, `none` before the row id
is known). -/
structure Infraction where
  user_id : Nat
  type : String
  reason : String
  actor_id : Nat
  start : Nat
  duration : Nat
  is_active : Bool
  id : Option Nat
deriving DecidableEq

/-- `self.stop = self.start + datetime.timedelta(0, self.duration)`
(`bot/utils/infractions.py`, line 41). -/
def Infraction.stop (i : Infraction) : Nat := i.start + i.duration

/-- The `Infraction.active` property (`bot/utils/infractions.py`, lines
50-56): `False` when `datetime.datetime.now() > self.stop` and the
duration is not the permanent sentinel, `True` otherwise. -/
def Infraction.active (i : Infraction) (now : Nat) : Bool :=
  if now > i.stop ∧ i.duration ≠ permanentSentinel then false else true

/-- One row of the sqlite `infractions` table (`bot/database.py`,
columns `UID, Type, Reason, ActorID, Start, Duration, Active`). -/
structure Row where
  uid : Nat
  rtype : String
  reason : String
  actor_id : Nat
  start : Nat
  duration : Nat
  active : Bool
deriving DecidableEq

/-- The `infractions` table: `(rowid, row)` pairs in insertion order. -/
structure DB where
  rows : List (Nat × Row)
deriving DecidableEq

/-- The rowid sqlite assigns to the next inserted row: one more than the
largest rowid in use. -/
def DB.freshId (db : DB) : Nat := (db.rows.map Prod.fst).foldr Nat.max 0 + 1

/-- `INSERT INTO infractions VALUES(...)`
(`bot/utils/infractions.py`, `Infraction.add_to_database`). -/
def DB.insertRow (db : DB) (r : Row) : DB := ⟨db.rows ++ [(db.freshId, r)]⟩

/-- First row of a row list carrying the given rowid (`fetchone` of a
`WHERE rowid=` query). -/
def lookupRows : List (Nat × Row) → Nat → Option Row
  | [], _ => none
  | p :: t, id => if p.1 = id then some p.2 else lookupRows t id

/-- `SELECT *, rowid FROM infractions WHERE rowid={id}`. -/
def DB.getRow (db : DB) (id : Nat) : Option Row :=
  lookupRows db.rows id

/-- `UPDATE infractions SET Active=0 WHERE rowid={id}`
(`bot/utils/infractions.py`, `Infraction.make_inactive`). -/
def DB.setInactive (db : DB) (id : Nat) : DB :=
  ⟨db.rows.map (fun p => if p.1 == id then (p.1, { p.2 with active := false }) else p)⟩

/-- `DELETE FROM infractions WHERE rowid={row_id}`
(`bot/utils/infractions.py`, `remove_infraction`). -/
def DB.deleteRow (db : DB) (id : Nat) : DB :=
  ⟨db.rows.filter (fun p => p.1 != id)⟩

/-- `True` when the row with this id, if present, has `Active=0`. -/
def DB.rowInactive (db : DB) (id : Nat) : Bool :=
  match db.getRow id with
  | some r => !r.active
  | none => true

/-- The tuple `Infraction.add_to_database` writes: `(user_id, type,
reason, actor_id, str_start, duration, int(is_active))`. -/
def Infraction.toRow (i : Infraction) : Row :=
  ⟨i.user_id, i.type, i.reason, i.actor_id, i.start, i.duration, i.is_active⟩

/-- `Infraction.add_to_database` (`bot/utils/infractions.py`, lines
76-88): insert the infraction's row. -/
def Infraction.add_to_database (i : Infraction) (db : DB) : DB :=
  db.insertRow i.toRow

/-- `Infraction(*db.cur.fetchone())` applied to a row fetched with
`SELECT *, rowid`: the constructor receives an explicit `active` column,
so `is_active = bool(active)`, and the rowid as `id`. -/
def Infraction.ofRow (id : Nat) (r : Row) : Infraction :=
  ⟨r.uid, r.rtype, r.reason, r.actor_id, r.start, r.duration, r.active, some id⟩

/-- The `Infraction` constructor as called at apply time (`active=None`,
so `is_active` is the `active` property evaluated at construction,
which at `now = start` is `True` for every duration). -/
def mkInfraction (user_id : Nat) (t : String) (reason : String)
    (actor_id : Nat) (start : Nat) (duration : Nat) : Infraction :=
  let base : Infraction := ⟨user_id, t, reason, actor_id, start, duration, true, none⟩
  { base with is_active := base.active start }

/-- `get_infraction_by_row` (`bot/utils/infractions.py`, lines 120-130):
`False` (here `none`) when the row does not exist. -/
def get_infraction_by_row (db : DB) (row_id : Nat) : Option Infraction :=
  (db.getRow row_id).map (Infraction.ofRow row_id)

/-- `get_active_infractions(user, inf_type)` (`bot/utils/infractions.py`,
lines 169-185): `SELECT *, rowid ... WHERE UID={user.id} AND Active=1`,
then a python-side filter on the type. -/
def get_active_infractions (db : DB) (uid : Nat) (inf_type : String) : List Infraction :=
  (((db.rows.filter (fun p => p.2.uid == uid && p.2.active)).map
    (fun p => Infraction.ofRow p.1 p.2)).filter (fun i => i.type == inf_type))

/-- `get_all_active_infractions()` with no type filter
(`bot/utils/infractions.py`, lines 133-148): `WHERE Active=1`. -/
def get_all_active_infractions (db : DB) : List Infraction :=
  (db.rows.filter (fun p => p.2.active)).map (fun p => Infraction.ofRow p.1 p.2)

/-- External platform calls attempted by the moderation code (arguments
reduced to the target user). -/
inductive Effect where
  | enforceBan (uid : Nat)
  | enforceMute (uid : Nat)
  | unban (uid : Nat)
  | pardonAction (uid : Nat)
deriving DecidableEq

/-- Modelled from the spec: the `Scheduler` base class
(`bot/utils/scheduling.py`) is not included under `src/`; per spec §4.3
the scheduler keeps an in-memory registry of pending expiry timers keyed
by infraction id.  `schedule_task` registers a timer under the id. -/
def schedule_task (sched : List Nat) (id : Nat) : List Nat :=
  if id ∈ sched then sched else sched ++ [id]

/-- Modelled from the spec: `cancel` (spec §4.3) "removes the pending
timer if present; safe to call on an untracked id (no-op)". -/
def cancel_task (sched : List Nat) (id : Nat) : List Nat :=
  sched.filter (fun x => x ≠ id)

/-- The loop body of `reschedule_infractions`
(`bot/cogs/moderation/scheduler.py`, lines 46-49): "Do not schedule
abort on permanent/instant infractions". -/
def reschedStep (s : List Nat) (i : Infraction) : List Nat :=
  if !(i.duration == permanentSentinel || i.duration == 0) then
    match i.id with
    | some n => schedule_task s n
    | none => s
  else s

/-- `InfractionScheduler.reschedule_infractions`
(`bot/cogs/moderation/scheduler.py`, lines 38-49): for every active
infraction, schedule its expiry task unless its duration is the
permanent sentinel or zero. -/
def reschedule_infractions (db : DB) (sched : List Nat) : List Nat :=
  (get_all_active_infractions db).foldl reschedStep sched

/-- The scheduling step of `InfractionScheduler.apply_infraction`
(`bot/cogs/moderation/scheduler.py`, lines 111-116): only when an
`action_coro` was supplied and awaited without raising does the guarded
`schedule_task` call run; an `HTTPException` from the action jumps to the
`except` handler and skips scheduling. -/
def apply_infraction_track (sched : List Nat) (inf : Infraction)
    (hasAction actionSucceeded : Bool) : List Nat :=
  if hasAction then
    if actionSucceeded then
      if !(inf.duration == permanentSentinel || inf.duration == 0) then
        match inf.id with
        | some n => schedule_task sched n
        | none => sched
      else sched
    else sched
  else sched

/-- Outcome of awaiting `guild.ban` / `user.add_roles`: the source's
`except Forbidden` is the only handler (`bot/cogs/moderation/infractions.py`,
lines 279-280, 389-390). -/
inductive BanOutcome where
  | success
  | forbidden
deriving DecidableEq

/-- Result signal of `Infractions.apply_ban` / `Infractions.apply_mute`. -/
inductive ApplyResult where
  | botReject
  | roleReject
  | conflict
  | applied
  | enforcementForbidden
deriving DecidableEq

/-- State and effects produced by one apply call. -/
structure ApplyOut where
  db : DB
  effects : List Effect
  result : ApplyResult
deriving DecidableEq

/-- The conflict loop of `apply_ban` / `apply_mute`
(`bot/cogs/moderation/infractions.py`, lines 222-238 and 333-349): for
each active infraction of the type, in order, return a conflict when its
`stop` exceeds `datetime.now() + duration`, or when its duration is the
permanent sentinel. -/
def conflictScan : List Infraction → Nat → Bool
  | [], _ => false
  | i :: rest, newStop =>
    if i.stop > newStop then true
    else if i.duration == permanentSentinel then true
    else conflictScan rest newStop

/-- `Infractions.apply_ban` (`bot/cogs/moderation/infractions.py`, lines
209-280).  `isBot` is `check_bot`, `hasHigherRole` is `check_role`; the
DM branch is omitted (its only anticipated failure, `Forbidden`, is
caught locally and does not change control flow or state). -/
def apply_ban (db : DB) (now uid : Nat) (duration : Nat) (reason : String)
    (actor : Nat) (isBot hasHigherRole : Bool) (banOut : BanOutcome) : ApplyOut :=
  if isBot then ⟨db, [], ApplyResult.botReject⟩
  else if !hasHigherRole then ⟨db, [], ApplyResult.roleReject⟩
  else
    let infs := get_active_infractions db uid "ban"
    if conflictScan infs (now + duration) then ⟨db, [], ApplyResult.conflict⟩
    else
      let db1 := (mkInfraction uid "ban" reason actor now duration).add_to_database db
      match banOut with
      | BanOutcome.success => ⟨db1, [Effect.enforceBan uid], ApplyResult.applied⟩
      | BanOutcome.forbidden => ⟨db1, [Effect.enforceBan uid], ApplyResult.enforcementForbidden⟩

/-- `Infractions.apply_mute` (`bot/cogs/moderation/infractions.py`, lines
320-390), same structure as `apply_ban` with type `"mute"` and the
role-assignment as the enforcement call. -/
def apply_mute (db : DB) (now uid : Nat) (duration : Nat) (reason : String)
    (actor : Nat) (isBot hasHigherRole : Bool) (banOut : BanOutcome) : ApplyOut :=
  if isBot then ⟨db, [], ApplyResult.botReject⟩
  else if !hasHigherRole then ⟨db, [], ApplyResult.roleReject⟩
  else
    let infs := get_active_infractions db uid "mute"
    if conflictScan infs (now + duration) then ⟨db, [], ApplyResult.conflict⟩
    else
      let db1 := (mkInfraction uid "mute" reason actor now duration).add_to_database db
      match banOut with
      | BanOutcome.success => ⟨db1, [Effect.enforceMute uid], ApplyResult.applied⟩
      | BanOutcome.forbidden => ⟨db1, [Effect.enforceMute uid], ApplyResult.enforcementForbidden⟩

/-- Outcome of awaiting `guild.unban(user)` inside `Infraction.pardon`
(`bot/utils/infractions.py`, lines 108-115): only `NotFound` is caught;
`Forbidden` (and any other error) propagates. -/
inductive UnbanOutcome where
  | success
  | notFound
  | forbidden
deriving DecidableEq

/-- State, effects and exception flag produced by `Infraction.pardon`. -/
structure PardonOut where
  db : DB
  effects : List Effect
  raised : Bool
deriving DecidableEq

/-- `Infraction.pardon` (`bot/utils/infractions.py`, lines 101-117):
return immediately when `self.is_active` is false; for a ban without
`force`, await `guild.unban` (catching only `NotFound`); then
`self.make_inactive()`.  Note the method never updates the in-memory
`self.is_active` flag.  Callers always hold fetched records, so
`self.id` is an assigned rowid; an unassigned id leaves the table
untouched. -/
def Infraction.pardon (inf : Infraction) (db : DB) (force : Bool)
    (out : UnbanOutcome) : PardonOut :=
  if !inf.is_active then ⟨db, [], false⟩
  else if !force && inf.type == "ban" then
    match out with
    | UnbanOutcome.forbidden => ⟨db, [Effect.unban inf.user_id], true⟩
    | _ =>
      match inf.id with
      | some n => ⟨db.setInactive n, [Effect.unban inf.user_id], false⟩
      | none => ⟨db, [Effect.unban inf.user_id], false⟩
  else
    match inf.id with
    | some n => ⟨db.setInactive n, [], false⟩
    | none => ⟨db, [], false⟩

/-- The guard of `InfractionScheduler.pardon_infraction`
(`bot/cogs/moderation/scheduler.py`, lines 157-160): when the held
record's `is_active` flag is false the method signals "This infraction
is not active" and returns `False` without further side effects. -/
def pardon_infraction_signals_not_active (inf : Infraction) : Bool :=
  !inf.is_active

/-- Modelled from the spec: the concrete `_pardon_action` implementations
(the cog subclassing `InfractionScheduler`) are not included under
`src/`; per spec §6 the reversal action may raise `Forbidden` or a
transport error (`HTTPException`, which also covers `NotFound`), the two
exception classes `deactivate_infraction` itself anticipates. -/
inductive PardonOutcome where
  | success
  | forbidden
  | httpError
deriving DecidableEq

/-- `max(infractions, key=lambda o: o.stop)` (python `max` keeps the
first element among those with the maximal key). -/
def maxByStop (hd : Infraction) (tl : List Infraction) : Infraction :=
  tl.foldl (fun acc i => if i.stop > acc.stop then i else acc) hd

/-- The guard of the deactivation loop
(`bot/cogs/moderation/scheduler.py`, lines 300-304): deactivate `i` when
its `stop` does not exceed the target's, unless `i` is permanent while
the target is not, or `i` has zero duration. -/
def deactCond (inf i : Infraction) : Bool :=
  i.stop ≤ inf.stop &&
    !((i.duration == permanentSentinel && inf.duration != permanentSentinel)
      || i.duration == 0)

/-- One iteration of the deactivation loop: `inf.make_inactive()` and
`self.cancel_task(inf.id)` for a qualifying infraction. -/
def deactStep (inf : Infraction) (acc : DB × List Nat) (i : Infraction) : DB × List Nat :=
  if deactCond inf i then
    match i.id with
    | some n => (acc.1.setInactive n, cancel_task acc.2 n)
    | none => acc
  else acc

/-- The deactivation loop over the fetched active infractions
(`bot/cogs/moderation/scheduler.py`, lines 299-307). -/
def deactLoop (inf : Infraction) (db : DB) (sched : List Nat)
    (l : List Infraction) : DB × List Nat :=
  l.foldl (deactStep inf) (db, sched)

/-- Result of `InfractionScheduler.deactivate_infraction`: final store
and scheduler state, attempted external effects, and the log signals
(`failure`: a `Failure` line was recorded; `note`: the pardon action was
aborted because of a longer infraction; `notActive`: the early return for
an inactive record; `errored`: an unhandled exception escaped, performing
nothing — the source's `max([])` `ValueError`). -/
structure DeactOut where
  db : DB
  sched : List Nat
  effects : List Effect
  failure : Bool
  note : Bool
  notActive : Bool
  errored : Bool
deriving DecidableEq

/-- `InfractionScheduler.deactivate_infraction`
(`bot/cogs/moderation/scheduler.py`, lines 223-332).  The reversal
(`self._pardon_action`) runs only when the max-by-`stop` active
infraction of the same user and type has duration at most the target's;
its `Forbidden`/`HTTPException` failures are caught and recorded as a
`Failure` log line, after which the deactivation loop still runs. -/
def deactivate_infraction (db : DB) (sched : List Nat) (inf : Infraction)
    (out : PardonOutcome) : DeactOut :=
  if !inf.is_active then
    ⟨db, sched, [], false, false, true, false⟩
  else
    match get_active_infractions db inf.user_id inf.type with
    | [] => ⟨db, sched, [], false, false, false, true⟩
    | hd :: tl =>
      let longest := maxByStop hd tl
      if longest.duration ≤ inf.duration then
        let failure := out != PardonOutcome.success
        let st := deactLoop inf db sched (hd :: tl)
        ⟨st.1, st.2, [Effect.pardonAction inf.user_id], failure, false, false, false⟩
      else
        let st := deactLoop inf db sched (hd :: tl)
        ⟨st.1, st.2, [], false, true, false, false⟩

/-- The writes the repository ever issues against the `infractions`
table: `INSERT` (`Infraction.add_to_database`), `UPDATE ... SET Active=0`
(`Infraction.make_inactive`) and `DELETE` (`remove_infraction`); no other
statement in the repository mutates the table. -/
inductive StoreOp where
  | insert (r : Row)
  | makeInactive (id : Nat)
  | delete (id : Nat)
deriving DecidableEq

/-- Interpretation of one table write. -/
def StoreOp.apply (op : StoreOp) (db : DB) : DB :=
  match op with
  | StoreOp.insert r => db.insertRow r
  | StoreOp.makeInactive id => db.setInactive id
  | StoreOp.delete id => db.deleteRow id

/-! Concrete states used by counterexamples and witnesses. -/

/-- A store holding one active ban for user 7: row 1 starts at 0 and
lasts 10 seconds (stop = 10). -/
def oneShortBanDB : DB := ⟨[(1, ⟨7, "ban", "spam", 1, 0, 10, true⟩)]⟩

/-- A store holding one active 100-second ban for user 7. -/
def oneBanDB : DB := ⟨[(1, ⟨7, "ban", "spam", 1, 0, 100, true⟩)]⟩

/-- The row-1 infraction of `oneBanDB` as fetched. -/
def oneBanInf : Infraction := Infraction.ofRow 1 ⟨7, "ban", "spam", 1, 0, 100, true⟩

/-- A short ban fetched object: user 7, start 0, duration 10. -/
def shortBanInf : Infraction := ⟨7, "ban", "spam", 1, 0, 10, true, none⟩

/-- A permanent ban object. -/
def permBanInf : Infraction := ⟨7, "ban", "spam", 1, 0, permanentSentinel, true, none⟩

/-- Two overlapping active bans for user 7: row 1 ends at 100 (duration
100), row 2 ends at 110 (duration 60, issued at 50).  Row 2 ends later
but has the smaller duration. -/
def twoBanDB : DB :=
  ⟨[(1, ⟨7, "ban", "rA", 1, 0, 100, true⟩), (2, ⟨7, "ban", "rB", 1, 50, 60, true⟩)]⟩

/-- Row 1 of `twoBanDB` as fetched. -/
def twoBanInfA : Infraction := Infraction.ofRow 1 ⟨7, "ban", "rA", 1, 0, 100, true⟩

/-- Row 2 of `twoBanDB` as fetched. -/
def twoBanInfB : Infraction := Infraction.ofRow 2 ⟨7, "ban", "rB", 1, 50, 60, true⟩

/-- Two active bans for user 7 where row 2 both ends later (stop 200)
and has the larger duration (200 vs 100). -/
def longerBanDB : DB :=
  ⟨[(1, ⟨7, "ban", "rA", 1, 0, 100, true⟩), (2, ⟨7, "ban", "rC", 1, 0, 200, true⟩)]⟩

/-- Row 1 of `longerBanDB` as fetched. -/
def longerBanInfA : Infraction := Infraction.ofRow 1 ⟨7, "ban", "rA", 1, 0, 100, true⟩

/-- Active infractions of three kinds: a finite ban, a permanent ban and
a zero-duration warn. -/
def mixedDB : DB :=
  ⟨[(1, ⟨7, "ban", "r", 1, 0, 100, true⟩),
    (2, ⟨8, "ban", "p", 1, 0, permanentSentinel, true⟩),
    (3, ⟨9, "warn", "w", 1, 0, 0, true⟩)]⟩

/-! Auxiliary lemmas about the store. -/

theorem le_foldr_max (l : List Nat) (x : Nat) (hx : x ∈ l) :
    x ≤ l.foldr Nat.max 0 := by
  induction l with
  | nil => cases hx
  | cons a t ih =>
    rcases List.mem_cons.mp hx with rfl | h
    · exact Nat.le_max_left _ _
    · exact Nat.le_trans (ih h) (Nat.le_max_right _ _)

theorem freshId_not_mem (db : DB) (p : Nat × Row) (hp : p ∈ db.rows) :
    p.1 ≠ db.freshId := by
  have h : p.1 ≤ (db.rows.map Prod.fst).foldr Nat.max 0 :=
    le_foldr_max _ _ (List.mem_map_of_mem Prod.fst hp)
  unfold DB.freshId
  omega

theorem lookupRows_append_fresh (l : List (Nat × Row)) (k : Nat) (r : Row)
    (h : ∀ p ∈ l, p.1 ≠ k) :
    lookupRows (l ++ [(k, r)]) k = some r := by
  induction l with
  | nil => simp [lookupRows]
  | cons a t ih =>
    have ha : a.1 ≠ k := h a (List.mem_cons_self a t)
    simp only [List.cons_append, lookupRows, if_neg ha]
    exact ih (fun p hp => h p (List.mem_cons_of_mem a hp))

theorem getRow_insert_self (db : DB) (r : Row) :
    (db.insertRow r).getRow db.freshId = some r := by
  unfold DB.insertRow DB.getRow
  exact lookupRows_append_fresh db.rows db.freshId r
    (fun p hp => freshId_not_mem db p hp)

theorem lookupRows_append_of_some (l l' : List (Nat × Row)) (n : Nat) (r : Row)
    (h : lookupRows l n = some r) : lookupRows (l ++ l') n = some r := by
  induction l with
  | nil => cases h
  | cons a t ih =>
    by_cases ha : a.1 = n
    · simp only [lookupRows, if_pos ha] at h
      simp only [List.cons_append, lookupRows, if_pos ha]
      exact h
    · simp only [lookupRows, if_neg ha] at h
      simp only [List.cons_append, lookupRows, if_neg ha]
      exact ih h

theorem getRow_insert_of_some (db : DB) (r r' : Row) (n : Nat)
    (h : db.getRow n = some r) : (db.insertRow r').getRow n = some r := by
  unfold DB.getRow at h ⊢
  unfold DB.insertRow
  exact lookupRows_append_of_some db.rows _ n r h

theorem lookupRows_map_setInactive (l : List (Nat × Row)) (n m : Nat) :
    lookupRows (l.map (fun p => if p.1 == m then (p.1, { p.2 with active := false }) else p)) n
      = if n = m then (lookupRows l n).map (fun r => { r with active := false })
        else lookupRows l n := by
  induction l with
  | nil => by_cases hnm : n = m <;> simp [lookupRows, hnm]
  | cons a t ih =>
    by_cases ham : a.1 = m
    · by_cases han : a.1 = n
      · have hnm : n = m := by omega
        simp [lookupRows, ham, han, hnm]
      · have hnm : ¬n = m := by omega
        have hmn : ¬m = n := by omega
        simpa [lookupRows, ham, han, hnm, hmn] using ih
    · by_cases han : a.1 = n
      · have hnm : ¬n = m := by omega
        simp [lookupRows, ham, han, hnm]
      · simpa [lookupRows, ham, han] using ih

theorem getRow_setInactive_self (db : DB) (n : Nat) :
    (db.setInactive n).getRow n
      = (db.getRow n).map (fun r => { r with active := false }) := by
  unfold DB.setInactive DB.getRow
  rw [lookupRows_map_setInactive db.rows n n]
  simp

theorem getRow_setInactive_ne (db : DB) (n m : Nat) (h : n ≠ m) :
    (db.setInactive m).getRow n = db.getRow n := by
  unfold DB.setInactive DB.getRow
  rw [lookupRows_map_setInactive db.rows n m]
  simp [h]

theorem rowInactive_setInactive_self (db : DB) (n : Nat) :
    (db.setInactive n).rowInactive n = true := by
  unfold DB.rowInactive
  rw [getRow_setInactive_self]
  rcases db.getRow n with _ | r
  · rfl
  · rfl

theorem rowInactive_setInactive_preserve (db : DB) (n m : Nat)
    (h : db.rowInactive n = true) : (db.setInactive m).rowInactive n = true := by
  by_cases hnm : n = m
  · subst hnm; exact rowInactive_setInactive_self db n
  · unfold DB.rowInactive at h ⊢
    rw [getRow_setInactive_ne db n m hnm]
    exact h

theorem lookupRows_filter_self_none (t : List (Nat × Row)) (n : Nat) :
    lookupRows (t.filter (fun p => p.1 != n)) n = none := by
  induction t with
  | nil => rfl
  | cons b u ih =>
    by_cases hbm : b.1 = n
    · have hb : (b.1 != n) = false := by simpa using hbm
      simp only [List.filter_cons, hb]
      simpa using ih
    · have hb : (b.1 != n) = true := by simpa using hbm
      simp only [List.filter_cons, hb, if_true]
      simpa [lookupRows, hbm] using ih

theorem lookupRows_filter_ne (l : List (Nat × Row)) (n m : Nat) (r' : Row)
    (h : lookupRows (l.filter (fun p => p.1 != m)) n = some r') :
    lookupRows l n = some r' := by
  by_cases hnm : n = m
  · subst hnm
    rw [lookupRows_filter_self_none l n] at h
    cases h
  · induction l with
    | nil => cases h
    | cons a t ih =>
      by_cases ham : a.1 = m
      · have hdrop : (a.1 != m) = false := by simpa using ham
        simp only [List.filter_cons, hdrop] at h
        have han : a.1 ≠ n := by omega
        simp only [lookupRows, if_neg han]
        simp only [Bool.false_eq_true, if_false] at h
        exact ih h
      · have hkeep : (a.1 != m) = true := by simpa using ham
        simp only [List.filter_cons, hkeep, if_true] at h
        by_cases han : a.1 = n
        · simp only [lookupRows, if_pos han] at h ⊢
          exact h
        · simp only [lookupRows, if_neg han] at h ⊢
          exact ih h

theorem getRow_delete_of_some (db : DB) (n m : Nat) (r' : Row)
    (h : (db.deleteRow m).getRow n = some r') : db.getRow n = some r' := by
  unfold DB.deleteRow DB.getRow at h
  unfold DB.getRow
  exact lookupRows_filter_ne db.rows n m r' h

/-! Auxiliary lemmas about the scheduler registry and the loops. -/

theorem mem_schedule_task (s : List Nat) (m x : Nat) :
    x ∈ schedule_task s m ↔ x ∈ s ∨ x = m := by
  unfold schedule_task
  by_cases hm : m ∈ s
  · simp only [if_pos hm]
    constructor
    · exact fun h => Or.inl h
    · rintro (h | rfl)
      · exact h
      · exact hm
  · simp [if_neg hm]

theorem mem_cancel_task (s : List Nat) (m x : Nat) :
    x ∈ cancel_task s m ↔ x ∈ s ∧ x ≠ m := by
  unfold cancel_task
  simp [List.mem_filter]

theorem mem_reschedStep (s : List Nat) (a : Infraction) (x : Nat) :
    x ∈ reschedStep s a ↔
      x ∈ s ∨ (a.id = some x ∧ a.duration ≠ permanentSentinel ∧ a.duration ≠ 0) := by
  unfold reschedStep
  by_cases h1 : a.duration = permanentSentinel
  · simp [h1, permanentSentinel]
  · by_cases h2 : a.duration = 0
    · simp [h1, h2]
    · cases hid : a.id with
      | none => simp [h1, h2, hid]
      | some m =>
        simp only [h1, h2, hid]
        have hg : (!(a.duration == permanentSentinel || a.duration == 0)) = true := by
          simp [h1, h2]
        rw [hg]
        simp only [if_true, mem_schedule_task]
        constructor
        · rintro (h | rfl)
          · exact Or.inl h
          · exact Or.inr ⟨rfl, h1, h2⟩
        · rintro (h | ⟨hm, _, _⟩)
          · exact Or.inl h
          · cases hm
            exact Or.inr rfl

theorem mem_foldl_reschedStep (l : List Infraction) :
    ∀ (s : List Nat) (x : Nat),
      x ∈ l.foldl reschedStep s ↔
        x ∈ s ∨ ∃ i ∈ l, i.id = some x ∧ i.duration ≠ permanentSentinel ∧ i.duration ≠ 0 := by
  induction l with
  | nil => intro s x; simp
  | cons a t ih =>
    intro s x
    rw [List.foldl_cons, ih, mem_reschedStep]
    constructor
    · rintro ((h | h) | ⟨i, hi, hrest⟩)
      · exact Or.inl h
      · exact Or.inr ⟨a, List.mem_cons_self a t, h⟩
      · exact Or.inr ⟨i, List.mem_cons_of_mem a hi, hrest⟩
    · rintro (h | ⟨i, hi, hrest⟩)
      · exact Or.inl (Or.inl h)
      · rcases List.mem_cons.mp hi with rfl | hmem
        · exact Or.inl (Or.inr hrest)
        · exact Or.inr ⟨i, hmem, hrest⟩

theorem conflictScan_iff (l : List Infraction) (s : Nat) :
    conflictScan l s = true ↔
      ∃ i ∈ l, s < i.stop ∨ i.duration = permanentSentinel := by
  induction l with
  | nil => simp [conflictScan]
  | cons a t ih =>
    unfold conflictScan
    by_cases h1 : a.stop > s
    · simp only [if_pos h1, true_iff]
      exact ⟨a, List.mem_cons_self a t, Or.inl h1⟩
    · by_cases h2 : a.duration = permanentSentinel
      · have hb : (a.duration == permanentSentinel) = true := by simpa using h2
        simp only [if_neg h1, hb, if_true, true_iff]
        exact ⟨a, List.mem_cons_self a t, Or.inr h2⟩
      · have hb : (a.duration == permanentSentinel) = false := by simpa using h2
        simp only [if_neg h1, hb, Bool.false_eq_true, if_false]
        rw [ih]
        constructor
        · rintro ⟨i, hi, hcond⟩
          exact ⟨i, List.mem_cons_of_mem a hi, hcond⟩
        · rintro ⟨i, hi, hcond⟩
          rcases List.mem_cons.mp hi with rfl | hmem
          · rcases hcond with h | h
            · exact absurd h h1
            · exact absurd h h2
          · exact ⟨i, hmem, hcond⟩

theorem deactCond_self (inf : Infraction) (h : inf.duration ≠ 0) :
    deactCond inf inf = true := by
  unfold deactCond
  have h1 : (inf.duration == (0 : Nat)) = false := by simpa using h
  by_cases hp : inf.duration = permanentSentinel
  · have hb : (inf.duration != permanentSentinel) = false := by simpa using hp
    simp [hb, h1]
  · have hb : (inf.duration == permanentSentinel) = false := by simpa using hp
    simp [hb, h1]

theorem deactCond_true (inf i : Infraction) (h5 : i.stop ≤ inf.stop)
    (h6 : i.duration ≠ 0)
    (h7 : i.duration = permanentSentinel → inf.duration = permanentSentinel) :
    deactCond inf i = true := by
  unfold deactCond
  have h1 : (i.duration == (0 : Nat)) = false := by simpa using h6
  by_cases hp : i.duration = permanentSentinel
  · have hip : inf.duration = permanentSentinel := h7 hp
    have hb : (inf.duration != permanentSentinel) = false := by simpa using hip
    simp [hb, h1, h5]
  · have hb : (i.duration == permanentSentinel) = false := by simpa using hp
    simp [hb, h1, h5]

theorem deactStep_preserve (inf i : Infraction) (acc : DB × List Nat) (n : Nat)
    (h1 : acc.1.rowInactive n = true) (h2 : n ∉ acc.2) :
    (deactStep inf acc i).1.rowInactive n = true ∧ n ∉ (deactStep inf acc i).2 := by
  unfold deactStep
  by_cases hc : deactCond inf i = true
  · rw [if_pos hc]
    cases hid : i.id with
    | none => exact ⟨h1, h2⟩
    | some m =>
      refine ⟨rowInactive_setInactive_preserve _ _ _ h1, ?_⟩
      intro hmem
      exact h2 ((mem_cancel_task _ _ _).mp hmem).1
  · rw [if_neg hc]
    exact ⟨h1, h2⟩

theorem deactStep_sets (inf i : Infraction) (acc : DB × List Nat) (n : Nat)
    (hid : i.id = some n) (hc : deactCond inf i = true) :
    (deactStep inf acc i).1.rowInactive n = true ∧ n ∉ (deactStep inf acc i).2 := by
  unfold deactStep
  rw [if_pos hc, hid]
  refine ⟨rowInactive_setInactive_self _ _, ?_⟩
  intro hmem
  exact ((mem_cancel_task _ _ _).mp hmem).2 rfl

theorem deactLoop_preserve (inf : Infraction) (l : List Infraction) :
    ∀ (db : DB) (sched : List Nat) (n : Nat),
      db.rowInactive n = true → n ∉ sched →
      (deactLoop inf db sched l).1.rowInactive n = true ∧
        n ∉ (deactLoop inf db sched l).2 := by
  induction l with
  | nil => intro db sched n h1 h2; exact ⟨h1, h2⟩
  | cons a t ih =>
    intro db sched n h1 h2
    have hstep := deactStep_preserve inf a (db, sched) n h1 h2
    have := ih (deactStep inf (db, sched) a).1 (deactStep inf (db, sched) a).2 n
      hstep.1 hstep.2
    simpa [deactLoop, List.foldl_cons] using this

theorem deactLoop_hits (inf : Infraction) (l : List Infraction) (i : Infraction)
    (n : Nat) (hi : i ∈ l) (hid : i.id = some n) (hc : deactCond inf i = true) :
    ∀ (db : DB) (sched : List Nat),
      (deactLoop inf db sched l).1.rowInactive n = true ∧
        n ∉ (deactLoop inf db sched l).2 := by
  induction l with
  | nil => cases hi
  | cons a t ih =>
    intro db sched
    rcases List.mem_cons.mp hi with rfl | hmem
    · have hstep := deactStep_sets inf i (db, sched) n hid hc
      have := deactLoop_preserve inf t (deactStep inf (db, sched) i).1
        (deactStep inf (db, sched) i).2 n hstep.1 hstep.2
      simpa [deactLoop, List.foldl_cons] using this
    · have := ih hmem (deactStep inf (db, sched) a).1 (deactStep inf (db, sched) a).2
      simpa [deactLoop, List.foldl_cons] using this

/-! Claim theorems. -/

/-- C2 (counterexample): the claim states `Infraction.active` is true iff
the duration is the permanent sentinel or `now` is strictly before
`created_at + duration`.  At `now = stop` (here 10 = 0 + 10) the source's
`datetime.now() > self.stop` test is false, so `active` returns true even
though neither disjunct of the claim holds. -/
theorem C2_counterexample :
    shortBanInf.active 10 = true ∧
    ¬(shortBanInf.duration = permanentSentinel ∨ 10 < shortBanInf.stop) := by
  decide

/-- C2 (amended): `Infraction.active` at instant `now` is true iff the
duration is the permanent sentinel or `now ≤ created_at + duration`
(non-strict); in particular an infraction with the permanent sentinel is
active at every instant. -/
theorem C2_active_iff :
    (∀ (i : Infraction) (now : Nat),
        i.active now = true ↔ i.duration = permanentSentinel ∨ now ≤ i.stop)
  ∧ (∀ (i : Infraction) (now : Nat),
        i.duration = permanentSentinel → i.active now = true) := by
  constructor
  · intro i now
    unfold Infraction.active
    by_cases hc : now > i.stop ∧ i.duration ≠ permanentSentinel
    · rw [if_pos hc]
      simp only [Bool.false_eq_true, false_iff]
      push_neg
      exact ⟨hc.2, by omega⟩
    · rw [if_neg hc]
      simp only [true_iff]
      by_cases hp : i.duration = permanentSentinel
      · exact Or.inl hp
      · right
        by_contra hgt
        exact hc ⟨by omega, hp⟩
  · intro i now h
    unfold Infraction.active
    rw [if_neg]
    intro hc
    exact hc.2 h

/-- C2 (witness): the amended theorem applied to a concrete permanent
ban at a concrete instant. -/
theorem C2_active_iff_witness : permBanInf.active 12345 = true :=
  C2_active_iff.2 permBanInf 12345 rfl

/-- C9: inserting an infraction and fetching it back under the assigned
rowid yields a record equal in every field (user id, type, reason, actor
id, start, duration, active flag), differing only in the assigned id. -/
theorem C9_insert_get_roundtrip (db : DB) (i : Infraction) :
    ∃ j, get_infraction_by_row (i.add_to_database db) db.freshId = some j ∧
      j.user_id = i.user_id ∧ j.type = i.type ∧ j.reason = i.reason ∧
      j.actor_id = i.actor_id ∧ j.start = i.start ∧ j.duration = i.duration ∧
      j.is_active = i.is_active ∧ j.id = some db.freshId := by
  refine ⟨Infraction.ofRow db.freshId i.toRow, ?_, rfl, rfl, rfl, rfl, rfl, rfl, rfl, rfl⟩
  unfold get_infraction_by_row Infraction.add_to_database
  rw [getRow_insert_self]
  rfl

/-- C8: every table write the repository performs either leaves an
existing row unchanged or sets its active flag to false; consequently a
cleared active flag never becomes true again while the row exists. -/
theorem C8_active_monotone (op : StoreOp) (db : DB) (n : Nat) (r r' : Row)
    (hbefore : db.getRow n = some r)
    (hafter : (op.apply db).getRow n = some r') :
    (r' = r ∨ r' = { r with active := false }) ∧
      (r.active = false → r'.active = false) := by
  have hmain : r' = r ∨ r' = { r with active := false } := by
    cases op with
    | insert q =>
      left
      have h2 := getRow_insert_of_some db r q n hbefore
      simp only [StoreOp.apply] at hafter
      rw [h2] at hafter
      exact (Option.some.inj hafter).symm
    | makeInactive m =>
      simp only [StoreOp.apply] at hafter
      by_cases hnm : n = m
      · subst hnm
        right
        rw [getRow_setInactive_self, hbefore] at hafter
        exact (Option.some.inj hafter).symm
      · left
        rw [getRow_setInactive_ne db n m hnm, hbefore] at hafter
        exact (Option.some.inj hafter).symm
    | delete m =>
      left
      simp only [StoreOp.apply] at hafter
      have h2 := getRow_delete_of_some db n m r' hafter
      rw [hbefore] at h2
      exact (Option.some.inj h2).symm
  refine ⟨hmain, ?_⟩
  intro hact
  rcases hmain with rfl | rfl
  · exact hact
  · rfl

/-- C8 (witness): the monotonicity theorem applied to the concrete
`UPDATE ... SET Active=0` write on a one-row store. -/
theorem C8_active_monotone_witness :
    ((⟨7, "ban", "spam", 1, 0, 100, false⟩ : Row) = ⟨7, "ban", "spam", 1, 0, 100, true⟩ ∨
      (⟨7, "ban", "spam", 1, 0, 100, false⟩ : Row)
        = { (⟨7, "ban", "spam", 1, 0, 100, true⟩ : Row) with active := false }) ∧
    ((⟨7, "ban", "spam", 1, 0, 100, true⟩ : Row).active = false →
      (⟨7, "ban", "spam", 1, 0, 100, false⟩ : Row).active = false) :=
  C8_active_monotone (StoreOp.makeInactive 1) oneBanDB 1
    ⟨7, "ban", "spam", 1, 0, 100, true⟩ ⟨7, "ban", "spam", 1, 0, 100, false⟩
    (by decide) (by decide)

/-- C7: startup reconciliation schedules expiry tasks exactly for the
active infractions with finite, non-zero duration; the post-enforcement
tracking step of `apply_infraction` never schedules a zero-duration or
permanent infraction, and schedules a finite non-zero one exactly when
the enforcement action was present and succeeded. -/
theorem C7_scheduling_guard :
    (∀ (db : DB) (n : Nat),
        n ∈ reschedule_infractions db [] ↔
          ∃ i ∈ get_all_active_infractions db, i.id = some n ∧
            i.duration ≠ permanentSentinel ∧ i.duration ≠ 0)
  ∧ (∀ (sched : List Nat) (inf : Infraction) (hasAction ok : Bool),
        inf.duration = permanentSentinel ∨ inf.duration = 0 →
        apply_infraction_track sched inf hasAction ok = sched)
  ∧ (∀ (sched : List Nat) (inf : Infraction) (n : Nat),
        inf.id = some n → inf.duration ≠ permanentSentinel → inf.duration ≠ 0 →
        apply_infraction_track sched inf true true = schedule_task sched n) := by
  refine ⟨?_, ?_, ?_⟩
  · intro db n
    unfold reschedule_infractions
    rw [mem_foldl_reschedStep]
    simp
  · intro sched inf hasAction ok h
    unfold apply_infraction_track
    have hg : (!(inf.duration == permanentSentinel || inf.duration == 0)) = false := by
      rcases h with h | h <;> simp [h]
    cases hasAction with
    | false => rfl
    | true =>
      cases ok with
      | false => rfl
      | true => rw [hg]; rfl
  · intro sched inf n hid h1 h2
    unfold apply_infraction_track
    have hg : (!(inf.duration == permanentSentinel || inf.duration == 0)) = true := by
      simp [h1, h2]
    rw [hg, hid]
    rfl

/-- C7 (witness): the guard theorem applied to a permanent infraction
(no scheduling) and to a concrete finite one (scheduled). -/
theorem C7_scheduling_guard_witness :
    apply_infraction_track [5] permBanInf true true = [5] ∧
    apply_infraction_track [] oneBanInf true true = schedule_task [] 1 :=
  ⟨C7_scheduling_guard.2.1 [5] permBanInf true true (Or.inl rfl),
   C7_scheduling_guard.2.2 [] oneBanInf 1 rfl (by decide) (by decide)⟩

/-- C6: when the conflict check passes, the record is inserted first;
a `Forbidden` from the platform ban then surfaces as
`BotMissingPermissions` (`EnforcementForbidden`) while the inserted row
stays in the store. -/
theorem C6_forbidden_keeps_record (db : DB) (now uid dur : Nat) (reason : String)
    (actor : Nat)
    (hnc : conflictScan (get_active_infractions db uid "ban") (now + dur) = false) :
    (apply_ban db now uid dur reason actor false true BanOutcome.forbidden).result
        = ApplyResult.enforcementForbidden ∧
    (apply_ban db now uid dur reason actor false true BanOutcome.forbidden).db.getRow db.freshId
        = some (mkInfraction uid "ban" reason actor now dur).toRow ∧
    (apply_ban db now uid dur reason actor false true BanOutcome.forbidden).effects
        = [Effect.enforceBan uid] := by
  unfold apply_ban
  simp only [hnc, Bool.not_true, Bool.false_eq_true, if_false]
  refine ⟨trivial, ?_, trivial⟩
  unfold Infraction.add_to_database
  exact getRow_insert_self db _

/-- C6 (witness): a concrete apply against a fresh user whose
enforcement is denied: the result signals the failure yet the new row is
retrievable. -/
theorem C6_forbidden_keeps_record_witness :
    (apply_ban oneBanDB 20 9 50 "x" 1 false true BanOutcome.forbidden).result
        = ApplyResult.enforcementForbidden ∧
    (apply_ban oneBanDB 20 9 50 "x" 1 false true BanOutcome.forbidden).db.getRow oneBanDB.freshId
        = some (mkInfraction 9 "ban" "x" 1 20 50).toRow ∧
    (apply_ban oneBanDB 20 9 50 "x" 1 false true BanOutcome.forbidden).effects
        = [Effect.enforceBan 9] :=
  C6_forbidden_keeps_record oneBanDB 20 9 50 "x" 1 (by decide)

/-- C1 (counterexample): the claim requires a `Conflict` (and no new
record, no enforcement call) already when an existing active ban ends
exactly as far in the future as the new one.  With an active ban ending
at 10 and a new ban requested at `now = 5` for 5 seconds (end 10), the
source's strict `infraction.stop > now + duration` test does not fire:
the apply proceeds, inserts a record and calls the platform ban. -/
theorem C1_counterexample :
    (∃ i ∈ get_active_infractions oneShortBanDB 7 "ban",
        5 + 5 ≤ i.stop ∧ i.duration ≠ permanentSentinel) ∧
    (apply_ban oneShortBanDB 5 7 5 "r2" 1 false true BanOutcome.success).result
        = ApplyResult.applied ∧
    (apply_ban oneShortBanDB 5 7 5 "r2" 1 false true BanOutcome.success).db
        ≠ oneShortBanDB ∧
    (apply_ban oneShortBanDB 5 7 5 "r2" 1 false true BanOutcome.success).effects
        = [Effect.enforceBan 7] := by
  decide

/-- C1 (amended): an apply of a ban (resp. mute) that passes the
bot/role checks is rejected with `Conflict` — leaving the store untouched
and making no external call — iff some existing active infraction of the
type ends strictly later than the new infraction's end or is permanent;
otherwise the apply proceeds: the new record is persisted and the
enforcement call is attempted. -/
theorem C1_conflict_rule :
    ∀ (db : DB) (now uid dur : Nat) (reason : String) (actor : Nat) (out : BanOutcome),
      ((∃ i ∈ get_active_infractions db uid "ban",
          now + dur < i.stop ∨ i.duration = permanentSentinel) →
        apply_ban db now uid dur reason actor false true out
          = ⟨db, [], ApplyResult.conflict⟩)
      ∧ ((∀ i ∈ get_active_infractions db uid "ban",
            ¬(now + dur < i.stop ∨ i.duration = permanentSentinel)) →
          (apply_ban db now uid dur reason actor false true out).db
            = (mkInfraction uid "ban" reason actor now dur).add_to_database db
          ∧ (apply_ban db now uid dur reason actor false true out).effects
            = [Effect.enforceBan uid])
      ∧ ((∃ i ∈ get_active_infractions db uid "mute",
          now + dur < i.stop ∨ i.duration = permanentSentinel) →
        apply_mute db now uid dur reason actor false true out
          = ⟨db, [], ApplyResult.conflict⟩)
      ∧ ((∀ i ∈ get_active_infractions db uid "mute",
            ¬(now + dur < i.stop ∨ i.duration = permanentSentinel)) →
          (apply_mute db now uid dur reason actor false true out).db
            = (mkInfraction uid "mute" reason actor now dur).add_to_database db
          ∧ (apply_mute db now uid dur reason actor false true out).effects
            = [Effect.enforceMute uid]) := by
  intro db now uid dur reason actor out
  refine ⟨?_, ?_, ?_, ?_⟩
  · intro hex
    have hscan : conflictScan (get_active_infractions db uid "ban") (now + dur) = true :=
      (conflictScan_iff _ _).mpr hex
    unfold apply_ban
    simp only [hscan, eq_self_iff_true, if_true, Bool.not_true, Bool.false_eq_true, if_false]
  · intro hall
    have hscan : conflictScan (get_active_infractions db uid "ban") (now + dur) = false := by
      cases hcs : conflictScan (get_active_infractions db uid "ban") (now + dur) with
      | false => rfl
      | true =>
        rcases (conflictScan_iff _ _).mp hcs with ⟨i, hi, hcond⟩
        exact absurd hcond (hall i hi)
    unfold apply_ban
    simp only [hscan, Bool.not_true, Bool.false_eq_true, if_false]
    cases out <;> exact ⟨rfl, rfl⟩
  · intro hex
    have hscan : conflictScan (get_active_infractions db uid "mute") (now + dur) = true :=
      (conflictScan_iff _ _).mpr hex
    unfold apply_mute
    simp only [hscan, eq_self_iff_true, if_true, Bool.not_true, Bool.false_eq_true, if_false]
  · intro hall
    have hscan : conflictScan (get_active_infractions db uid "mute") (now + dur) = false := by
      cases hcs : conflictScan (get_active_infractions db uid "mute") (now + dur) with
      | false => rfl
      | true =>
        rcases (conflictScan_iff _ _).mp hcs with ⟨i, hi, hcond⟩
        exact absurd hcond (hall i hi)
    unfold apply_mute
    simp only [hscan, Bool.not_true, Bool.false_eq_true, if_false]
    cases out <;> exact ⟨rfl, rfl⟩

/-- C1 (witness): the amended rule applied concretely: a second ban on a
user with a strictly longer active ban is rejected without effects. -/
theorem C1_conflict_rule_witness :
    apply_ban oneBanDB 5 7 5 "r2" 1 false true BanOutcome.success
      = ⟨oneBanDB, [], ApplyResult.conflict⟩ :=
  (C1_conflict_rule oneBanDB 5 7 5 "r2" 1 BanOutcome.success).1
    ⟨oneBanInf, by decide, by decide⟩

/-- Reduction of `deactivate_infraction` on an active target whose
user/type query returns a non-empty list. -/
theorem deactivate_infraction_cons (db : DB) (sched : List Nat) (inf : Infraction)
    (out : PardonOutcome) (hd : Infraction) (tl : List Infraction)
    (h1 : inf.is_active = true)
    (h2 : get_active_infractions db inf.user_id inf.type = hd :: tl) :
    deactivate_infraction db sched inf out =
      if (maxByStop hd tl).duration ≤ inf.duration then
        ⟨(deactLoop inf db sched (hd :: tl)).1, (deactLoop inf db sched (hd :: tl)).2,
          [Effect.pardonAction inf.user_id], out != PardonOutcome.success,
          false, false, false⟩
      else
        ⟨(deactLoop inf db sched (hd :: tl)).1, (deactLoop inf db sched (hd :: tl)).2,
          [], false, true, false, false⟩ := by
  unfold deactivate_infraction
  rw [h1, h2]
  simp only [Bool.not_true, Bool.false_eq_true, if_false]

/-- C3 (counterexample): the claim predicts no external reversal
whenever another still-active same-type infraction with a strictly later
end exists.  In `twoBanDB`, row 2 ends at 110, later than the pardoned
row 1's 100, yet the source compares durations of the max-by-stop
infraction (60 ≤ 100), so the reversal action is invoked. -/
theorem C3_counterexample :
    twoBanInfA.is_active = true ∧
    (∃ other ∈ get_active_infractions twoBanDB twoBanInfA.user_id twoBanInfA.type,
        other.id ≠ twoBanInfA.id ∧ twoBanInfA.stop < other.stop) ∧
    (deactivate_infraction twoBanDB [1, 2] twoBanInfA PardonOutcome.success).effects
      = [Effect.pardonAction 7] := by
  decide

/-- C3 (amended): when the max-by-end-time active infraction of the same
user and type has a strictly greater duration than the pardoned one, the
external reversal is not invoked (a note is logged instead), while the
pardoned record — its duration being non-zero — is still marked inactive
in the store and its scheduler entry is cancelled. -/
theorem C3_skip_reversal (db : DB) (sched : List Nat) (inf : Infraction)
    (out : PardonOutcome) (hd : Infraction) (tl : List Infraction) (n : Nat)
    (h1 : inf.is_active = true)
    (h2 : get_active_infractions db inf.user_id inf.type = hd :: tl)
    (h3 : inf.duration < (maxByStop hd tl).duration)
    (h4 : inf ∈ hd :: tl)
    (h5 : inf.id = some n)
    (h6 : inf.duration ≠ 0) :
    (deactivate_infraction db sched inf out).effects = [] ∧
    (deactivate_infraction db sched inf out).note = true ∧
    (deactivate_infraction db sched inf out).db.rowInactive n = true ∧
    n ∉ (deactivate_infraction db sched inf out).sched := by
  rw [deactivate_infraction_cons db sched inf out hd tl h1 h2,
    if_neg (not_le.mpr h3)]
  have hl := deactLoop_hits inf (hd :: tl) inf n h4 h5 (deactCond_self inf h6) db sched
  exact ⟨rfl, rfl, hl.1, hl.2⟩

/-- C3 (witness): pardoning the 100-second ban while a 200-second ban of
the same user is active skips the reversal yet deactivates row 1. -/
theorem C3_skip_reversal_witness :
    (deactivate_infraction longerBanDB [1, 2] longerBanInfA PardonOutcome.success).effects
        = [] ∧
    (deactivate_infraction longerBanDB [1, 2] longerBanInfA PardonOutcome.success).note
        = true ∧
    (deactivate_infraction longerBanDB [1, 2] longerBanInfA
        PardonOutcome.success).db.rowInactive 1 = true ∧
    1 ∉ (deactivate_infraction longerBanDB [1, 2] longerBanInfA PardonOutcome.success).sched :=
  C3_skip_reversal longerBanDB [1, 2] longerBanInfA PardonOutcome.success
    longerBanInfA [Infraction.ofRow 2 ⟨7, "ban", "rC", 1, 0, 200, true⟩] 1
    rfl (by decide) (by decide) (by decide) rfl (by decide)

/-- C10: `deactivate_infraction` on an active target also deactivates
every other fetched active infraction of the same user and type whose
end does not exceed the target's — excluding zero-duration ones and
excluding permanent ones unless the target is itself permanent — marking
it inactive in the store and cancelling its expiry task, in both the
reversal and the no-reversal branch. -/
theorem C10_deactivates_shorter (db : DB) (sched : List Nat)
    (inf other : Infraction) (out : PardonOutcome)
    (hd : Infraction) (tl : List Infraction) (m : Nat)
    (h1 : inf.is_active = true)
    (h2 : get_active_infractions db inf.user_id inf.type = hd :: tl)
    (h3 : other ∈ hd :: tl)
    (h4 : other.id = some m)
    (h5 : other.stop ≤ inf.stop)
    (h6 : other.duration ≠ 0)
    (h7 : other.duration = permanentSentinel → inf.duration = permanentSentinel) :
    (deactivate_infraction db sched inf out).db.rowInactive m = true ∧
    m ∉ (deactivate_infraction db sched inf out).sched := by
  rw [deactivate_infraction_cons db sched inf out hd tl h1 h2]
  have hc := deactCond_true inf other h5 h6 h7
  have hl := deactLoop_hits inf (hd :: tl) other m h3 h4 hc db sched
  by_cases hb : (maxByStop hd tl).duration ≤ inf.duration
  · rw [if_pos hb]
    exact hl
  · rw [if_neg hb]
    exact hl

/-- C10 (witness): pardoning row 2 (end 110) of `twoBanDB` also
deactivates row 1 (end 100) and cancels its task. -/
theorem C10_deactivates_shorter_witness :
    (deactivate_infraction twoBanDB [1, 2] twoBanInfB PardonOutcome.success).db.rowInactive 1
        = true ∧
    1 ∉ (deactivate_infraction twoBanDB [1, 2] twoBanInfB PardonOutcome.success).sched :=
  C10_deactivates_shorter twoBanDB [1, 2] twoBanInfB twoBanInfA PardonOutcome.success
    twoBanInfA [twoBanInfB] 1 rfl (by decide) (by decide) rfl (by decide) (by decide)
    (by decide)

/-- C4 (counterexample): the claim states every pardon whose reversal
fails (Forbidden, NotFound or transport error) still marks the record
inactive.  In `Infraction.pardon` only `NotFound` is caught: a
`Forbidden` from `guild.unban` propagates before `make_inactive`, so the
record stays active. -/
theorem C4_counterexample :
    oneBanInf.is_active = true ∧
    (oneBanInf.pardon oneBanDB false UnbanOutcome.forbidden).raised = true ∧
    (oneBanInf.pardon oneBanDB false UnbanOutcome.forbidden).db.rowInactive 1 = false ∧
    (oneBanInf.pardon oneBanDB false UnbanOutcome.forbidden).db = oneBanDB := by
  decide

/-- C4 (amended): in the scheduler's `deactivate_infraction` path a
failing reversal (Forbidden or transport error) is recorded as a Failure
line and the (non-zero-duration) record is still marked inactive; in
`Infraction.pardon` a `NotFound` failure is tolerated and the record is
still marked inactive, but a `Forbidden` propagates as an exception
before the store write, leaving the record active. -/
theorem C4_pardon_failure_paths :
    (∀ (db : DB) (sched : List Nat) (inf : Infraction) (out : PardonOutcome)
        (hd : Infraction) (tl : List Infraction) (n : Nat),
        inf.is_active = true →
        get_active_infractions db inf.user_id inf.type = hd :: tl →
        (maxByStop hd tl).duration ≤ inf.duration →
        inf ∈ hd :: tl → inf.id = some n → inf.duration ≠ 0 →
        out ≠ PardonOutcome.success →
        (deactivate_infraction db sched inf out).failure = true ∧
        (deactivate_infraction db sched inf out).effects
          = [Effect.pardonAction inf.user_id] ∧
        (deactivate_infraction db sched inf out).db.rowInactive n = true)
  ∧ (∀ (inf : Infraction) (db : DB) (n : Nat),
        inf.is_active = true → inf.type = "ban" → inf.id = some n →
        (inf.pardon db false UnbanOutcome.notFound).db.rowInactive n = true ∧
        (inf.pardon db false UnbanOutcome.notFound).raised = false)
  ∧ (∀ (inf : Infraction) (db : DB),
        inf.is_active = true → inf.type = "ban" →
        inf.pardon db false UnbanOutcome.forbidden
          = ⟨db, [Effect.unban inf.user_id], true⟩) := by
  refine ⟨?_, ?_, ?_⟩
  · intro db sched inf out hd tl n h1 h2 hle h4 h5 h6 hout
    rw [deactivate_infraction_cons db sched inf out hd tl h1 h2, if_pos hle]
    refine ⟨?_, rfl, ?_⟩
    · cases out with
      | success => exact absurd rfl hout
      | forbidden => rfl
      | httpError => rfl
    · exact (deactLoop_hits inf (hd :: tl) inf n h4 h5 (deactCond_self inf h6) db sched).1
  · intro inf db n h1 h3 h2
    have hp : inf.pardon db false UnbanOutcome.notFound
        = ⟨db.setInactive n, [Effect.unban inf.user_id], false⟩ := by
      unfold Infraction.pardon
      rw [h1, h3, h2]
      rfl
    rw [hp]
    exact ⟨rowInactive_setInactive_self db n, rfl⟩
  · intro inf db h1 h3
    unfold Infraction.pardon
    rw [h1, h3]
    rfl

/-- C4 (witness): the amended statement applied concretely: a forbidden
reversal in the deactivate path still deactivates row 1, a NotFound in
`Infraction.pardon` still deactivates, a Forbidden there leaves the
store untouched. -/
theorem C4_pardon_failure_paths_witness :
    ((deactivate_infraction oneBanDB [1] oneBanInf PardonOutcome.forbidden).failure = true ∧
      (deactivate_infraction oneBanDB [1] oneBanInf PardonOutcome.forbidden).effects
        = [Effect.pardonAction 7] ∧
      (deactivate_infraction oneBanDB [1] oneBanInf
          PardonOutcome.forbidden).db.rowInactive 1 = true) ∧
    ((oneBanInf.pardon oneBanDB false UnbanOutcome.notFound).db.rowInactive 1 = true ∧
      (oneBanInf.pardon oneBanDB false UnbanOutcome.notFound).raised = false) ∧
    oneBanInf.pardon oneBanDB false UnbanOutcome.forbidden
      = ⟨oneBanDB, [Effect.unban 7], true⟩ :=
  ⟨C4_pardon_failure_paths.1 oneBanDB [1] oneBanInf PardonOutcome.forbidden
      oneBanInf [] 1 rfl (by decide) (by decide) (by decide) rfl (by decide) (by decide),
   C4_pardon_failure_paths.2.1 oneBanInf oneBanDB 1 rfl rfl rfl,
   C4_pardon_failure_paths.2.2 oneBanInf oneBanDB rfl rfl⟩

/-- C5 (counterexample): the claim states the second pardon call
performs no external call.  `make_inactive` never updates the in-memory
`is_active` flag, so a second `Infraction.pardon` on the same object —
after the first call already deactivated the stored row — attempts the
platform unban again. -/
theorem C5_counterexample :
    (oneBanInf.pardon oneBanDB false UnbanOutcome.success).db.rowInactive 1 = true ∧
    (oneBanInf.pardon (oneBanInf.pardon oneBanDB false UnbanOutcome.success).db false
        UnbanOutcome.notFound).effects = [Effect.unban 7] := by
  decide

/-- C5 (amended): the first pardon of an active ban deactivates the
stored row and invokes the reversal exactly once; a second call on the
record as re-fetched from the store observes it inactive, signals
NotActive and performs no store write and no external call; but a second
call on the same in-memory object (whose stale `is_active` flag was
never updated) attempts the reversal again. -/
theorem C5_pardon_twice (db : DB) (inf : Infraction) (n : Nat) (r : Row)
    (out1 : UnbanOutcome)
    (h1 : inf.is_active = true) (h2 : inf.id = some n) (h3 : inf.type = "ban")
    (h4 : db.getRow n = some r) (h5 : out1 ≠ UnbanOutcome.forbidden) :
    (inf.pardon db false out1).db.rowInactive n = true ∧
    (inf.pardon db false out1).effects = [Effect.unban inf.user_id] ∧
    (∀ j, get_infraction_by_row (inf.pardon db false out1).db n = some j →
        j.is_active = false ∧ pardon_infraction_signals_not_active j = true ∧
        ∀ (out2 : UnbanOutcome) (force : Bool),
          j.pardon (inf.pardon db false out1).db force out2
            = ⟨(inf.pardon db false out1).db, [], false⟩) ∧
    (inf.pardon (inf.pardon db false out1).db false UnbanOutcome.notFound).effects
      = [Effect.unban inf.user_id] := by
  have hp1 : inf.pardon db false out1
      = ⟨db.setInactive n, [Effect.unban inf.user_id], false⟩ := by
    unfold Infraction.pardon
    rw [h1, h3, h2]
    cases out1 with
    | success => rfl
    | notFound => rfl
    | forbidden => exact absurd rfl h5
  rw [hp1]
  refine ⟨rowInactive_setInactive_self db n, rfl, ?_, ?_⟩
  · intro j hj
    have hget : get_infraction_by_row (db.setInactive n) n
        = some (Infraction.ofRow n { r with active := false }) := by
      unfold get_infraction_by_row
      rw [getRow_setInactive_self, h4]
      rfl
    rw [hget] at hj
    injection hj with hj
    subst hj
    refine ⟨rfl, rfl, ?_⟩
    intro out2 force
    unfold Infraction.pardon
    rfl
  · unfold Infraction.pardon
    rw [h1, h3, h2]
    rfl

/-- C5 (witness): the amended statement applied to the one-ban store. -/
theorem C5_pardon_twice_witness :
    (oneBanInf.pardon oneBanDB false UnbanOutcome.success).db.rowInactive 1 = true ∧
    (oneBanInf.pardon oneBanDB false UnbanOutcome.success).effects = [Effect.unban 7] ∧
    (∀ j, get_infraction_by_row (oneBanInf.pardon oneBanDB false
            UnbanOutcome.success).db 1 = some j →
        j.is_active = false ∧ pardon_infraction_signals_not_active j = true ∧
        ∀ (out2 : UnbanOutcome) (force : Bool),
          j.pardon (oneBanInf.pardon oneBanDB false UnbanOutcome.success).db force out2
            = ⟨(oneBanInf.pardon oneBanDB false UnbanOutcome.success).db, [], false⟩) ∧
    (oneBanInf.pardon (oneBanInf.pardon oneBanDB false UnbanOutcome.success).db false
        UnbanOutcome.notFound).effects = [Effect.unban 7] :=
  C5_pardon_twice oneBanDB oneBanInf 1 ⟨7, "ban", "spam", 1, 0, 100, true⟩
    UnbanOutcome.success rfl rfl rfl (by decide) (by decide)

end CommandBot
